import Mathlib

/-!
Verification of the runtests conformance-test harness (src/runtests.py and
src/runtests/core.py): a shallow embedding of the data model (TestCase,
TestBatch, Job, Interpreter), the result-classification logic
(TestCase.set_result), the batch-partitioning logic (Job.add_testcase), the
orchestrator loop (Runtests.run), the default exit-code classification
(Interpreter.determine_result) and the idempotent bulk insert of the
persistence layer (insert_ignore_many), together with theorems settling the
spec claims about them.
-/

/-- Interpreter verdict enumeration. PASS, FAIL and ABORT are the integer
constants 0, 1, 2 of the Interpreter class in src/runtests.py (lines
498-500); the package variant in src/runtests/core.py compares against an
additional Interpreter.TIMEOUT constant imported from runtests/interpreter.py.
Modelled from the spec: TIMEOUT is the verdict an external watchdog produces
on subprocess timeout (spec sections 4.1 and 4.2); runtests/interpreter.py is
not among the source files, so the four verdicts are embedded as the
constructors of one inductive type, distinct from each other exactly as the
four integer constants are. -/
inductive InterpResult where
  | PASS
  | FAIL
  | ABORT
  | TIMEOUT
deriving DecidableEq

/-- One test case, after src/runtests/core.py class TestCase (lines 16-163):
identity (filename, realpath), lazily loaded metadata (negative, nostrict,
onlystrict, includes, guarded by test_record_loaded), the back-reference to
the owning batch (embedded as an opaque batch identifier), the Timer
timestamps, and the execution outcome (interp_result, result, exit_code,
stdout, stderr). Defaults are the class-level defaults of the source. -/
structure TestCase where
  filename : String
  realpath : String
  test_record_loaded : Bool := false
  negative : Bool := false
  nostrict : Bool := false
  onlystrict : Bool := false
  includes : Option (List String) := none
  batch : Option Nat := none
  start_time : Option Nat := none
  stop_time : Option Nat := none
  interp_result : Option InterpResult := none
  result : Nat := 0
  exit_code : Int := -1
  stdout : String := ""
  stderr : String := ""
deriving DecidableEq

/-- Fake-enum for result, src/runtests/core.py line 27. -/
def TestCase.UNKNOWN : Nat := 0

/-- Fake-enum for result, src/runtests/core.py line 28. -/
def TestCase.PASS : Nat := 1

/-- Fake-enum for result, src/runtests/core.py line 29. -/
def TestCase.FAIL : Nat := 2

/-- Fake-enum for result, src/runtests/core.py line 30. -/
def TestCase.ABORT : Nat := 3

/-- Fake-enum for result, src/runtests/core.py line 31. -/
def TestCase.TIMEOUT : Nat := 4

/-- Substring test, embedding the Python expression
needle in haystack used at src/runtests/core.py line 77. -/
def strContains (hay needle : String) : Bool :=
  (List.range (hay.data.length + 1)).any fun i => needle.data.isPrefixOf (hay.data.drop i)

/-- The early-error-mismatch marker checked at src/runtests/core.py line 77. -/
def notEarlyErrorMarker : String := "NotEarlyError"

/-- The explanatory note appended to stderr at src/runtests/core.py line 79. -/
def earlyErrorNote : String :=
  "\n\n[Runtests] Test should have errored with an EarlyError, and not a runtime error."

/-- TestCase.set_result, src/runtests/core.py lines 69-92: stores the raw
interpreter verdict, classifies it into the final result (ABORT and TIMEOUT
pass through; a negative test first checks the early-error marker in either
captured stream, appending the note to stderr, then inverts PASS/FAIL; a
normal test maps PASS to PASS and anything else to FAIL), and stores
exit_code, stdout and the (possibly extended) stderr. -/
def TestCase.set_result (tc : TestCase) (interp_result : InterpResult) (exit_code : Int)
    (stdout stderr : String) : TestCase :=
  let rs : Nat × String :=
    if interp_result = InterpResult.ABORT then
      (TestCase.ABORT, stderr)
    else if interp_result = InterpResult.TIMEOUT then
      (TestCase.TIMEOUT, stderr)
    else if tc.negative then
      if strContains stdout notEarlyErrorMarker || strContains stderr notEarlyErrorMarker then
        (TestCase.FAIL, stderr ++ earlyErrorNote)
      else if interp_result = InterpResult.PASS then
        (TestCase.FAIL, stderr)
      else
        (TestCase.PASS, stderr)
    else
      if interp_result = InterpResult.PASS then
        (TestCase.PASS, stderr)
      else
        (TestCase.FAIL, stderr)
  { tc with interp_result := some interp_result, result := rs.1,
            exit_code := exit_code, stdout := stdout, stderr := rs.2 }

/-- TestCase.passed, src/runtests/core.py lines 103-104. -/
def TestCase.passed (tc : TestCase) : Bool := tc.result == TestCase.PASS

/-- TestCase.failed, src/runtests/core.py lines 106-107. -/
def TestCase.failed (tc : TestCase) : Bool := tc.result == TestCase.FAIL

/-- TestCase.aborted, src/runtests/core.py lines 109-110. -/
def TestCase.aborted (tc : TestCase) : Bool := tc.result == TestCase.ABORT

/-- Parsed test-record directives of one test file. parseTestRecord
(runtests/parseTestRecord.py) is an external collaborator not among the
source files; src/runtests/core.py lines 54-67 only tests key membership
("negative", "onlyStrict", "noStrict", "raw") and reads the truthy
"includes" entry, so the record is embedded as those four membership flags
plus the optional includes list. -/
structure TestRecord where
  negative : Bool
  onlyStrict : Bool
  noStrict : Bool
  raw : Bool
  includes : Option (List String)
deriving DecidableEq

/-- TestCase.fetch_file_info, src/runtests/core.py lines 54-67: when the test
record has not been loaded yet, read the file, parse it (the parsed record is
passed in as an argument, standing for parseTestRecord applied to the file's
contents) and set the metadata fields, marking test_record_loaded; otherwise
do nothing. -/
def TestCase.fetch_file_info (tc : TestCase) (record : TestRecord) : TestCase :=
  if tc.test_record_loaded then tc
  else
    { tc with
      negative := record.negative,
      onlystrict := record.onlyStrict,
      nostrict := record.noStrict || record.raw,
      includes := some (match record.includes with
        | some l => if l.isEmpty then [] else l
        | none => []),
      test_record_loaded := true }

/-- TestCase.is_negative, src/runtests/core.py lines 147-149: triggers the
lazy metadata load, then reads the negative flag. -/
def TestCase.is_negative (tc : TestCase) (record : TestRecord) : Bool :=
  (tc.fetch_file_info record).negative

/-- TestCase.get_includes, src/runtests/core.py lines 151-153: triggers the
lazy metadata load, then reads the includes list. -/
def TestCase.get_includes (tc : TestCase) (record : TestRecord) : Option (List String) :=
  (tc.fetch_file_info record).includes

/-- A batch of test cases, after src/runtests/core.py class TestBatch (lines
166-264): machine metadata, the FIFO queue of pending tests and the three
terminal buckets. The job back-reference is dropped (it is only used to copy
identifiers into database rows). -/
structure TestBatch where
  system : String := ""
  osnodename : String := ""
  osrelease : String := ""
  osversion : String := ""
  hardware : String := ""
  condor_proc : Int := -1
  pending_tests : List TestCase := []
  passed_tests : List TestCase := []
  failed_tests : List TestCase := []
  aborted_tests : List TestCase := []
deriving DecidableEq

/-- TestBatch.__len__, src/runtests/core.py lines 195-196: the pending count. -/
def TestBatch.size (b : TestBatch) : Nat := b.pending_tests.length

/-- TestBatch.add_testcase, src/runtests/core.py lines 198-200 (the
testcase.batch back-reference assignment is dropped with the job
back-reference). -/
def TestBatch.add_testcase (b : TestBatch) (t : TestCase) : TestBatch :=
  { b with pending_tests := b.pending_tests ++ [t] }

/-- TestBatch.test_finished, src/runtests/core.py lines 223-229: appends a
classified test case to exactly one of the three terminal buckets. -/
def TestBatch.test_finished (b : TestBatch) (t : TestCase) : TestBatch :=
  if t.passed then { b with passed_tests := b.passed_tests ++ [t] }
  else if t.failed then { b with failed_tests := b.failed_tests ++ [t] }
  else { b with aborted_tests := b.aborted_tests ++ [t] }

/-- A test job, after src/runtests/core.py class Job (lines 267-342), keeping
the two fields the batch-partitioning logic reads: the batch-size policy and
the batch list (title, interpreter and version metadata are orthogonal to
partitioning). -/
structure Job where
  batch_size : Nat := 0
  batches : List TestBatch := []
deriving DecidableEq

/-- Job.new_batch, src/runtests/core.py lines 318-319: appends a fresh empty
batch. -/
def Job.new_batch (j : Job) : Job :=
  { j with batches := j.batches ++ [({} : TestBatch)] }

/-- Job construction, src/runtests/core.py lines 291-307: stores the batch
size and lazily constructs the first batch by one new_batch call. A Python
batch_size of None or 0 is falsy at line 322; both are embedded as 0. -/
def Job.create (batch_size : Nat) : Job :=
  Job.new_batch { batch_size := batch_size, batches := [] }

/-- Job.add_testcase, src/runtests/core.py lines 321-326: when the batch size
is nonzero and the newest batch is full, lazily start a new batch; then route
the test case into the newest batch. (The tests_version git probe at lines
324-325 touches no batch state and is dropped.) -/
def Job.add_testcase (j : Job) (t : TestCase) : Job :=
  let j1 := if j.batch_size ≠ 0 ∧ (j.batches.getLastD {}).size ≥ j.batch_size
    then j.new_batch else j
  { j1 with batches := j1.batches.dropLast ++ [(j1.batches.getLastD {}).add_testcase t] }

/-- Job.add_testcases, src/runtests/core.py lines 328-330: adds the test
cases one at a time, in order. -/
def Job.add_testcases (j : Job) (ts : List TestCase) : Job :=
  ts.foldl Job.add_testcase j

/-- The pending queues of a job's batches, in order. -/
def Job.pendings (j : Job) : List (List TestCase) :=
  j.batches.map TestBatch.pending_tests

/-- The interpreter-facing configuration of the Interpreter class,
src/runtests.py lines 490-496: the configured pass and fail exit codes (class
defaults 0 and 1) and the binary path. -/
structure Interpreter where
  pass_code : Int := 0
  fail_code : Int := 1
  path : String := ""
deriving DecidableEq

/-- Interpreter.determine_result, src/runtests.py lines 553-560: the
configured pass code maps to PASS, the configured fail code to FAIL, any
other exit code to ABORT. -/
def Interpreter.determine_result (i : Interpreter) (testcase : TestCase) (ret : Int)
    (out err : String) : InterpResult :=
  if ret = i.pass_code then InterpResult.PASS
  else if ret = i.fail_code then InterpResult.FAIL
  else InterpResult.ABORT

/-- The batch execution loop of Runtests.run, src/runtests.py lines 865-872:
while the batch has a pending test, pop it, run it through the interpreter
(the synchronous subprocess invocation plus classification of
Interpreter.run_test is abstracted as the function interp from the popped
test case to the classified test case), and file the classified test into
its terminal bucket with test_finished. -/
def runPendingTests (interp : TestCase → TestCase) :
    List TestCase → TestBatch → TestBatch
  | [], b => b
  | t :: rest, b => runPendingTests interp rest (b.test_finished (interp t))

/-- Runtests.run, src/runtests.py lines 857-883, restricted to the batch
state it mutates: drains the pending queue through the loop (handler
notifications and timers touch no bucket state). -/
def Runtests.run (interp : TestCase → TestCase) (b : TestBatch) : TestBatch :=
  runPendingTests interp b.pending_tests { b with pending_tests := [] }

/-- Modelled from the spec: one insert-or-ignore step of the database engine
on a table of rows keyed by a primary key. SQLiteDBManager.insert_ignore_many
(src/runtests.py lines 314-319) issues INSERT OR IGNORE and
PostgresDBManager.insert_ignore_many (lines 351-360) an INSERT ... SELECT
... WHERE NOT EXISTS under a table lock; per spec section 4.4 both skip a row
whose primary key already exists and append it otherwise. The table is a list
of (key, payload) rows. -/
def insert_ignore_row {κ ρ : Type} [DecidableEq κ] (table : List (κ × ρ)) (r : κ × ρ) :
    List (κ × ρ) :=
  if r.1 ∈ table.map Prod.fst then table else table ++ [r]

/-- Modelled from the spec: insert_ignore_many (src/runtests.py lines 314-319
and 351-360) executes the per-row statement over the collection in order
(cursor.executemany), so it is the left fold of the insert-or-ignore step. -/
def insert_ignore_many {κ ρ : Type} [DecidableEq κ] (table : List (κ × ρ))
    (coll : List (κ × ρ)) : List (κ × ρ) :=
  coll.foldl insert_ignore_row table

/-- A test case with no metadata loaded, used as a concrete input. -/
def blankTestCase : TestCase := { filename := "a.js", realpath := "a.js" }

/-- A negative test case, used as a concrete input. -/
def negativeTestCase : TestCase :=
  { filename := "n.js", realpath := "n.js", negative := true }

/-- C2: for every TestCase and every exit code and captured output, an
interpreter verdict of ABORT makes set_result assign the final result ABORT;
the negative flag (quantified over the whole TestCase) is never consulted. -/
theorem set_result_abort_passthrough (tc : TestCase) (ec : Int) (out err : String) :
    (tc.set_result InterpResult.ABORT ec out err).result = TestCase.ABORT := by
  simp [TestCase.set_result]

/-- C3: for every TestCase and every exit code and captured output, an
interpreter verdict of TIMEOUT (which is not ABORT) makes set_result assign
the final result TIMEOUT, regardless of the negative flag and of the
captured output. -/
theorem set_result_timeout_passthrough (tc : TestCase) (ec : Int) (out err : String) :
    (tc.set_result InterpResult.TIMEOUT ec out err).result = TestCase.TIMEOUT := by
  simp [TestCase.set_result]

/-- C1: for a TestCase with negative set and an interpreter verdict other
than ABORT and TIMEOUT, set_result applies the inversion policy: when the
captured stdout or stderr contains the early-error-mismatch marker the
result is FAIL regardless of the verdict and the explanatory note is
appended to the stored stderr; otherwise verdict PASS yields result FAIL and
verdict FAIL yields result PASS. -/
theorem set_result_negative_inversion (tc : TestCase) (ir : InterpResult) (ec : Int)
    (out err : String) (hneg : tc.negative = true)
    (hab : ir ≠ InterpResult.ABORT) (hto : ir ≠ InterpResult.TIMEOUT) :
    ((strContains out notEarlyErrorMarker || strContains err notEarlyErrorMarker) = true →
      (tc.set_result ir ec out err).result = TestCase.FAIL ∧
      (tc.set_result ir ec out err).stderr = err ++ earlyErrorNote) ∧
    ((strContains out notEarlyErrorMarker || strContains err notEarlyErrorMarker) = false →
      (ir = InterpResult.PASS → (tc.set_result ir ec out err).result = TestCase.FAIL) ∧
      (ir = InterpResult.FAIL → (tc.set_result ir ec out err).result = TestCase.PASS)) := by
  constructor
  · intro hm
    constructor <;> simp [TestCase.set_result, hneg, hab, hto, hm]
  · intro hm
    constructor <;> intro hir <;> subst hir <;>
      simp [TestCase.set_result, hneg, hm]

/-- C1 witness: the negative test case with verdict PASS and the marker in
stdout is classified FAIL with the note appended to stderr. -/
theorem set_result_negative_inversion_witness :
    negativeTestCase.negative = true ∧
    (negativeTestCase.set_result InterpResult.PASS 0 "NotEarlyError" "").result
      = TestCase.FAIL ∧
    (negativeTestCase.set_result InterpResult.PASS 0 "NotEarlyError" "").stderr
      = "" ++ earlyErrorNote :=
  ⟨rfl,
    (set_result_negative_inversion negativeTestCase InterpResult.PASS 0 "NotEarlyError" ""
      rfl (by decide) (by decide)).1 (by decide) |>.1,
    (set_result_negative_inversion negativeTestCase InterpResult.PASS 0 "NotEarlyError" ""
      rfl (by decide) (by decide)).1 (by decide) |>.2⟩

/-- C4: for every TestCase and every combination of interpreter verdict,
exit code and captured output, after set_result the result field is one of
PASS, FAIL, ABORT, TIMEOUT, and it is never UNKNOWN. -/
theorem set_result_terminal (tc : TestCase) (ir : InterpResult) (ec : Int)
    (out err : String) :
    ((tc.set_result ir ec out err).result = TestCase.PASS ∨
     (tc.set_result ir ec out err).result = TestCase.FAIL ∨
     (tc.set_result ir ec out err).result = TestCase.ABORT ∨
     (tc.set_result ir ec out err).result = TestCase.TIMEOUT) ∧
    (tc.set_result ir ec out err).result ≠ TestCase.UNKNOWN := by
  have h : (tc.set_result ir ec out err).result = TestCase.PASS ∨
      (tc.set_result ir ec out err).result = TestCase.FAIL ∨
      (tc.set_result ir ec out err).result = TestCase.ABORT ∨
      (tc.set_result ir ec out err).result = TestCase.TIMEOUT := by
    cases ir <;>
      by_cases hn : tc.negative = true <;>
      by_cases hm : (strContains out notEarlyErrorMarker ||
        strContains err notEarlyErrorMarker) = true <;>
      simp [TestCase.set_result, hn, hm]
  refine ⟨h, ?_⟩
  rcases h with h | h | h | h <;> rw [h] <;> decide

/-- C7: under the precondition that the configured pass and fail exit codes
differ, the default interpreter classification maps the pass code to PASS,
the fail code to FAIL, and every other exit code to ABORT. -/
theorem determine_result_classification (i : Interpreter) (tc : TestCase)
    (out err : String) (h : i.pass_code ≠ i.fail_code) :
    i.determine_result tc i.pass_code out err = InterpResult.PASS ∧
    i.determine_result tc i.fail_code out err = InterpResult.FAIL ∧
    ∀ ret : Int, ret ≠ i.pass_code → ret ≠ i.fail_code →
      i.determine_result tc ret out err = InterpResult.ABORT := by
  refine ⟨by simp [Interpreter.determine_result], ?_, ?_⟩
  · simp [Interpreter.determine_result, Ne.symm h]
  · intro ret h1 h2
    simp [Interpreter.determine_result, h1, h2]

/-- C7 witness: the default interpreter configuration (pass code 0, fail
code 1) classifies exit code 0 as PASS, 1 as FAIL and 139 as ABORT. -/
theorem determine_result_classification_witness :
    ({} : Interpreter).pass_code ≠ ({} : Interpreter).fail_code ∧
    ({} : Interpreter).determine_result blankTestCase 0 "" "" = InterpResult.PASS ∧
    ({} : Interpreter).determine_result blankTestCase 1 "" "" = InterpResult.FAIL ∧
    ({} : Interpreter).determine_result blankTestCase 139 "" "" = InterpResult.ABORT :=
  have h := determine_result_classification ({} : Interpreter) blankTestCase "" ""
    (by decide)
  ⟨by decide, h.1, h.2.1, h.2.2 139 (by decide) (by decide)⟩

/-- C8: fetch_file_info is idempotent and memoized: a second call, with
whatever record a re-read of the file would produce, leaves the TestCase
exactly as the first call set it, and the accessors that trigger the load
(is_negative, get_includes) read the memoized fields. -/
theorem fetch_file_info_memoized (tc : TestCase) (r r2 : TestRecord) :
    (tc.fetch_file_info r).fetch_file_info r2 = tc.fetch_file_info r ∧
    ((tc.fetch_file_info r).fetch_file_info r2).negative = (tc.fetch_file_info r).negative ∧
    (tc.fetch_file_info r).is_negative r2 = (tc.fetch_file_info r).negative ∧
    (tc.fetch_file_info r).get_includes r2 = (tc.fetch_file_info r).includes ∧
    (tc.fetch_file_info r).test_record_loaded = true := by
  have hload : (tc.fetch_file_info r).test_record_loaded = true := by
    by_cases h : tc.test_record_loaded = true <;>
      simp [TestCase.fetch_file_info, h]
  have hidem : (tc.fetch_file_info r).fetch_file_info r2 = tc.fetch_file_info r := by
    by_cases h : tc.test_record_loaded = true <;>
      simp [TestCase.fetch_file_info, h]
  exact ⟨hidem, by rw [hidem], by rw [TestCase.is_negative, hidem],
    by rw [TestCase.get_includes, hidem], hload⟩

/-- C10: set_result mutates only the result-related fields; the identity and
metadata fields and the timestamps are unchanged by the call. -/
theorem set_result_frame (tc : TestCase) (ir : InterpResult) (ec : Int)
    (out err : String) :
    (tc.set_result ir ec out err).filename = tc.filename ∧
    (tc.set_result ir ec out err).realpath = tc.realpath ∧
    (tc.set_result ir ec out err).negative = tc.negative ∧
    (tc.set_result ir ec out err).nostrict = tc.nostrict ∧
    (tc.set_result ir ec out err).onlystrict = tc.onlystrict ∧
    (tc.set_result ir ec out err).includes = tc.includes ∧
    (tc.set_result ir ec out err).batch = tc.batch ∧
    (tc.set_result ir ec out err).start_time = tc.start_time ∧
    (tc.set_result ir ec out err).stop_time = tc.stop_time ∧
    (tc.set_result ir ec out err).test_record_loaded = tc.test_record_loaded :=
  ⟨rfl, rfl, rfl, rfl, rfl, rfl, rfl, rfl, rfl, rfl⟩

/-- Bucket contents of the execution loop: running the pending list appends
to each terminal bucket exactly the classified tests that its predicate
selects, in order, and never touches the pending queue. -/
theorem runPendingTests_buckets (f : TestCase → TestCase) (ts : List TestCase)
    (b : TestBatch) :
    (runPendingTests f ts b).passed_tests
      = b.passed_tests ++ (ts.map f).filter (fun t => t.passed) ∧
    (runPendingTests f ts b).failed_tests
      = b.failed_tests ++ (ts.map f).filter (fun t => !t.passed && t.failed) ∧
    (runPendingTests f ts b).aborted_tests
      = b.aborted_tests ++ (ts.map f).filter (fun t => !t.passed && !t.failed) ∧
    (runPendingTests f ts b).pending_tests = b.pending_tests := by
  induction ts generalizing b with
  | nil => simp [runPendingTests]
  | cons t rest ih =>
    obtain ⟨hp, hf, ha, hq⟩ := ih (b.test_finished (f t))
    refine ⟨?_, ?_, ?_, ?_⟩ <;>
      simp only [runPendingTests, hp, hf, ha, hq, List.map_cons, List.filter_cons] <;>
      by_cases h1 : (f t).passed <;> by_cases h2 : (f t).failed <;>
        simp [TestBatch.test_finished, h1, h2]

/-- Disjointness of two filtered lists whose predicates exclude each other. -/
theorem disjoint_of_filters {α : Type} {l₁ l₂ : List α} {p q : α → Bool}
    (h : ∀ x, p x = true → q x = true → False) :
    List.Disjoint (l₁.filter p) (l₂.filter q) := fun x hx1 hx2 =>
  h x (List.mem_filter.mp hx1).2 (List.mem_filter.mp hx2).2

/-- C6: in the batch execution loop, starting from a batch whose terminal
buckets are empty, every TestCase popped from the pending queue is filed,
after classification, into exactly one of the three terminal buckets (the
buckets are exactly the filters of the classified tests by the
test_finished predicates, and their concatenation is a permutation of the
classified tests), the pending queue is drained, and the three buckets are
pairwise disjoint. -/
theorem run_buckets_partition (f : TestCase → TestCase) (ts : List TestCase) :
    (Runtests.run f { pending_tests := ts }).passed_tests
      = (ts.map f).filter (fun t => t.passed) ∧
    (Runtests.run f { pending_tests := ts }).failed_tests
      = (ts.map f).filter (fun t => !t.passed && t.failed) ∧
    (Runtests.run f { pending_tests := ts }).aborted_tests
      = (ts.map f).filter (fun t => !t.passed && !t.failed) ∧
    (Runtests.run f { pending_tests := ts }).pending_tests = [] ∧
    List.Perm
      ((Runtests.run f { pending_tests := ts }).passed_tests ++
        (Runtests.run f { pending_tests := ts }).failed_tests ++
        (Runtests.run f { pending_tests := ts }).aborted_tests)
      (ts.map f) ∧
    List.Disjoint (Runtests.run f { pending_tests := ts }).passed_tests
      (Runtests.run f { pending_tests := ts }).failed_tests ∧
    List.Disjoint (Runtests.run f { pending_tests := ts }).passed_tests
      (Runtests.run f { pending_tests := ts }).aborted_tests ∧
    List.Disjoint (Runtests.run f { pending_tests := ts }).failed_tests
      (Runtests.run f { pending_tests := ts }).aborted_tests := by
  obtain ⟨hp, hf, ha, hq⟩ :=
    runPendingTests_buckets f ts
      { pending_tests := [], passed_tests := [], failed_tests := [],
        aborted_tests := [] }
  have hrun : Runtests.run f { pending_tests := ts }
      = runPendingTests f ts
        { pending_tests := [], passed_tests := [], failed_tests := [],
          aborted_tests := [] } := rfl
  rw [hrun, hp, hf, ha]
  simp only [List.nil_append]
  refine ⟨trivial, trivial, trivial, hq, ?_, ?_, ?_, ?_⟩
  · have e2 : ((ts.map f).filter (fun t => !t.passed && t.failed)) ++
        ((ts.map f).filter (fun t => !t.passed && !t.failed))
        = ((ts.map f).filter (fun t => !t.passed)).filter (fun t => t.failed) ++
          ((ts.map f).filter (fun t => !t.passed)).filter (fun t => !t.failed) := by
      rw [List.filter_filter, List.filter_filter]
      exact congrArg₂ (· ++ ·)
        (List.filter_congr fun a _ => Bool.and_comm _ _)
        (List.filter_congr fun a _ => Bool.and_comm _ _)
    have perm1 : List.Perm
        (((ts.map f).filter (fun t => !t.passed && t.failed)) ++
          ((ts.map f).filter (fun t => !t.passed && !t.failed)))
        ((ts.map f).filter (fun t => !t.passed)) := by
      rw [e2]
      exact List.filter_append_perm (fun t : TestCase => t.failed)
        ((ts.map f).filter (fun t => !t.passed))
    have perm2 : List.Perm
        ((ts.map f).filter (fun t => t.passed) ++
          (((ts.map f).filter (fun t => !t.passed && t.failed)) ++
            ((ts.map f).filter (fun t => !t.passed && !t.failed))))
        ((ts.map f).filter (fun t => t.passed) ++
          (ts.map f).filter (fun t => !t.passed)) :=
      List.Perm.append_left _ perm1
    have perm3 : List.Perm
        ((ts.map f).filter (fun t => t.passed) ++
          (ts.map f).filter (fun t => !t.passed))
        (ts.map f) := List.filter_append_perm (fun t => t.passed) (ts.map f)
    rw [List.append_assoc]
    exact perm2.trans perm3
  · exact disjoint_of_filters fun x h1 h2 => by simp [h1] at h2
  · exact disjoint_of_filters fun x h1 h2 => by simp [h1] at h2
  · exact disjoint_of_filters fun x h1 h2 => by
      simp only [Bool.and_eq_true] at h1 h2
      rw [h1.2] at h2
      simp at h2

/-- Inserting a row whose key is already present leaves the table unchanged. -/
theorem insert_ignore_row_of_mem {κ ρ : Type} [DecidableEq κ] (t : List (κ × ρ))
    (r : κ × ρ) (h : r.1 ∈ t.map Prod.fst) : insert_ignore_row t r = t := by
  simp [insert_ignore_row, h]

/-- Key membership after one insert-or-ignore step. -/
theorem mem_keys_insert_ignore_row {κ ρ : Type} [DecidableEq κ] (t : List (κ × ρ))
    (r : κ × ρ) (k : κ) :
    k ∈ (insert_ignore_row t r).map Prod.fst ↔ k ∈ t.map Prod.fst ∨ k = r.1 := by
  unfold insert_ignore_row
  split
  · rename_i h
    constructor
    · exact Or.inl
    · rintro (hk | rfl)
      · exact hk
      · exact h
  · simp

/-- Key membership after a bulk insert-or-ignore. -/
theorem mem_keys_insert_ignore_many {κ ρ : Type} [DecidableEq κ] (t : List (κ × ρ))
    (coll : List (κ × ρ)) (k : κ) :
    k ∈ (insert_ignore_many t coll).map Prod.fst
      ↔ k ∈ t.map Prod.fst ∨ k ∈ coll.map Prod.fst := by
  induction coll generalizing t with
  | nil => simp [insert_ignore_many]
  | cons r rest ih =>
    show k ∈ (insert_ignore_many (insert_ignore_row t r) rest).map Prod.fst ↔ _
    rw [ih, mem_keys_insert_ignore_row]
    simp only [List.map_cons, List.mem_cons]
    tauto

/-- One insert-or-ignore step preserves key uniqueness. -/
theorem keys_nodup_insert_ignore_row {κ ρ : Type} [DecidableEq κ] (t : List (κ × ρ))
    (r : κ × ρ) (hnd : (t.map Prod.fst).Nodup) :
    ((insert_ignore_row t r).map Prod.fst).Nodup := by
  unfold insert_ignore_row
  split
  · exact hnd
  · rename_i h
    simp only [List.map_append, List.map_cons, List.map_nil]
    simp [List.nodup_append, hnd, h]

/-- A bulk insert-or-ignore preserves key uniqueness. -/
theorem keys_nodup_insert_ignore_many {κ ρ : Type} [DecidableEq κ] (t : List (κ × ρ))
    (coll : List (κ × ρ)) (hnd : (t.map Prod.fst).Nodup) :
    ((insert_ignore_many t coll).map Prod.fst).Nodup := by
  induction coll generalizing t with
  | nil => exact hnd
  | cons r rest ih =>
    exact ih (insert_ignore_row t r) (keys_nodup_insert_ignore_row t r hnd)

/-- A bulk insert whose every key is already present is the identity. -/
theorem insert_ignore_many_of_keys_mem {κ ρ : Type} [DecidableEq κ] (t : List (κ × ρ))
    (coll : List (κ × ρ)) (h : ∀ r ∈ coll, r.1 ∈ t.map Prod.fst) :
    insert_ignore_many t coll = t := by
  induction coll with
  | nil => rfl
  | cons r rest ih =>
    have h1 : insert_ignore_row t r = t := insert_ignore_row_of_mem t r (h r (by simp))
    show insert_ignore_many (insert_ignore_row t r) rest = t
    rw [h1]
    exact ih fun r2 hr2 => h r2 (by simp [hr2])

/-- C9: insert_ignore_many is idempotent with respect to primary keys: when
the table's keys are unique, after inserting a collection the table's keys
are still unique (exactly one row per key), and inserting a second
collection carrying the same primary keys (with the same or different
payloads) leaves the table exactly unchanged — a colliding key is silently
skipped, never an error (the operation is a total function). -/
theorem insert_ignore_many_idempotent {κ ρ : Type} [DecidableEq κ]
    (table rs rs2 : List (κ × ρ))
    (hnd : (table.map Prod.fst).Nodup)
    (hkeys : ∀ k ∈ rs2.map Prod.fst, k ∈ rs.map Prod.fst) :
    ((insert_ignore_many table rs).map Prod.fst).Nodup ∧
    insert_ignore_many (insert_ignore_many table rs) rs2
      = insert_ignore_many table rs := by
  refine ⟨keys_nodup_insert_ignore_many table rs hnd, ?_⟩
  apply insert_ignore_many_of_keys_mem
  intro r hr
  rw [mem_keys_insert_ignore_many]
  exact Or.inr (hkeys r.1 (List.mem_map_of_mem Prod.fst hr))

/-- C9 witness: inserting the row with key 1 and payload 10 into the empty
table and then re-inserting key 1 with payload 20 leaves exactly the one
original row. -/
theorem insert_ignore_many_idempotent_witness :
    (([] : List (Nat × Nat)).map Prod.fst).Nodup ∧
    ((insert_ignore_many ([] : List (Nat × Nat)) [(1, 10)]).map Prod.fst).Nodup ∧
    insert_ignore_many (insert_ignore_many ([] : List (Nat × Nat)) [(1, 10)]) [(1, 20)]
      = insert_ignore_many ([] : List (Nat × Nat)) [(1, 10)] ∧
    insert_ignore_many ([] : List (Nat × Nat)) [(1, 10)] = [(1, 10)] :=
  have h := insert_ignore_many_idempotent ([] : List (Nat × Nat)) [(1, 10)] [(1, 20)]
    (by decide) (by decide)
  ⟨by decide, h.1, h.2, by decide⟩

/-- Job.add_testcase preserves the batch-size policy. -/
theorem Job.add_testcase_batch_size (j : Job) (t : TestCase) :
    (j.add_testcase t).batch_size = j.batch_size := by
  unfold Job.add_testcase Job.new_batch
  dsimp only
  split <;> rfl

/-- Action of Job.add_testcase on a job whose batch list is decomposed into
its initial batches and its newest batch: when the size policy demands it a
fresh batch receives the test, otherwise the newest batch does. -/
theorem Job.add_testcase_batches (j : Job) (bs : List TestBatch) (cur : TestBatch)
    (t : TestCase) (h : j.batches = bs ++ [cur]) :
    (j.add_testcase t).batches =
      if j.batch_size ≠ 0 ∧ cur.size ≥ j.batch_size then
        (bs ++ [cur]) ++ [TestBatch.add_testcase {} t]
      else bs ++ [cur.add_testcase t] := by
  unfold Job.add_testcase Job.new_batch
  dsimp only
  rw [h, List.getLastD_concat]
  split
  · dsimp only
    rw [List.dropLast_concat, List.getLastD_concat]
  · rw [h, List.dropLast_concat, List.getLastD_concat]

/-- Job.add_testcases unfolds one step at a time. -/
theorem Job.add_testcases_cons (j : Job) (t : TestCase) (ts : List TestCase) :
    j.add_testcases (t :: ts) = (j.add_testcase t).add_testcases ts := rfl

/-- With the unbounded policy (batch size 0) every added test goes to the
newest batch. -/
theorem Job.add_testcases_batch_size_zero :
    ∀ (us : List TestCase) (j : Job) (bs : List TestBatch) (cur : TestBatch),
      j.batch_size = 0 → j.batches = bs ++ [cur] →
      (j.add_testcases us).batches
        = bs ++ [{ cur with pending_tests := cur.pending_tests ++ us }] := by
  intro us
  induction us with
  | nil =>
    intro j bs cur h0 hb
    simpa [Job.add_testcases] using hb
  | cons u rest ih =>
    intro j bs cur h0 hb
    rw [Job.add_testcases_cons]
    have hadd := Job.add_testcase_batches j bs cur u hb
    rw [if_neg (by simp [h0])] at hadd
    have hsz := Job.add_testcase_batch_size j u
    rw [ih (j.add_testcase u) bs (cur.add_testcase u) (by rw [hsz, h0]) hadd]
    simp [TestBatch.add_testcase]

/-- Chunking invariant of the batch-size-k policy: adding a list of tests to
a job whose batches are the full initial batches followed by the newest,
not-overfull batch keeps that shape, appends the tests in order to the
concatenation of the pending queues, and leaves the newest batch nonempty
except in the untouched initial state. -/
theorem Job.add_testcases_chunked (k : Nat) (hk : k ≠ 0) :
    ∀ (ts : List TestCase) (j : Job) (bs : List TestBatch) (cur : TestBatch),
      j.batch_size = k →
      j.batches = bs ++ [cur] →
      (∀ b ∈ bs, b.pending_tests.length = k) →
      cur.pending_tests.length ≤ k →
      ∃ bs2 cur2,
        (j.add_testcases ts).batches = bs2 ++ [cur2] ∧
        (∀ b ∈ bs2, b.pending_tests.length = k) ∧
        cur2.pending_tests.length ≤ k ∧
        ((bs2 ++ [cur2]).map TestBatch.pending_tests).flatten
          = ((bs ++ [cur]).map TestBatch.pending_tests).flatten ++ ts ∧
        (cur2.pending_tests = [] → (bs2 = bs ∧ cur2 = cur ∧ ts = [])) := by
  intro ts
  induction ts with
  | nil =>
    intro j bs cur hsz hb hfull hcur
    exact ⟨bs, cur, hb, hfull, hcur, by simp [Job.add_testcases], fun _ => ⟨rfl, rfl, rfl⟩⟩
  | cons t rest ih =>
    intro j bs cur hsz hb hfull hcur
    rw [Job.add_testcases_cons]
    have hadd := Job.add_testcase_batches j bs cur t hb
    have hsz2 : (j.add_testcase t).batch_size = k := by
      rw [Job.add_testcase_batch_size, hsz]
    by_cases hc : cur.size ≥ k
    · rw [if_pos (by rw [hsz]; exact ⟨hk, hc⟩)] at hadd
      have hcurk : cur.pending_tests.length = k := le_antisymm hcur hc
      have hfull2 : ∀ b ∈ bs ++ [cur], b.pending_tests.length = k := by
        intro b hbmem
        rcases List.mem_append.mp hbmem with hmem | hmem
        · exact hfull b hmem
        · rw [List.mem_singleton.mp hmem]; exact hcurk
      have hnew : (TestBatch.add_testcase {} t).pending_tests = [t] := rfl
      obtain ⟨bs2, cur2, h1, h2, h3, h4, h5⟩ :=
        ih (j.add_testcase t) (bs ++ [cur]) (TestBatch.add_testcase {} t)
          hsz2 hadd hfull2 (by rw [hnew]; exact Nat.one_le_iff_ne_zero.mpr hk)
      refine ⟨bs2, cur2, h1, h2, h3, ?_, ?_⟩
      · rw [h4]
        simp [TestBatch.add_testcase]
      · intro hnil
        obtain ⟨_, hcur2, hrest⟩ := h5 hnil
        rw [hcur2] at hnil
        simp [hnew] at hnil
    · rw [if_neg (by rw [hsz]; exact fun hand => hc hand.2)] at hadd
      have hlt : cur.pending_tests.length < k := Nat.lt_of_not_le hc
      have hcur2 : (cur.add_testcase t).pending_tests.length ≤ k := by
        simp [TestBatch.add_testcase]
        omega
      obtain ⟨bs2, cur2, h1, h2, h3, h4, h5⟩ :=
        ih (j.add_testcase t) bs (cur.add_testcase t) hsz2 hadd hfull hcur2
      refine ⟨bs2, cur2, h1, h2, h3, ?_, ?_⟩
      · rw [h4]
        simp [TestBatch.add_testcase]
      · intro hnil
        obtain ⟨_, hcur2eq, hrest⟩ := h5 hnil
        rw [hcur2eq] at hnil
        simp [TestBatch.add_testcase] at hnil

/-- Sum of a constant-valued map. -/
theorem sum_map_const_of_mem {α : Type} (l : List α) (g : α → Nat) (k : Nat)
    (h : ∀ b ∈ l, g b = k) : (l.map g).sum = l.length * k := by
  induction l with
  | nil => simp
  | cons x xs ih =>
    have hx : g x = k := h x (by simp)
    have hxs := ih fun b hb => h b (by simp [hb])
    simp [hx, hxs, Nat.succ_mul, Nat.add_comm]

/-- Ceiling division identity for a total of m full chunks of size k plus a
nonempty final chunk of size r. -/
theorem ceil_div_full_chunks (k m r : Nat) (hk : k ≠ 0) (h1 : 1 ≤ r) (h2 : r ≤ k) :
    (m * k + r + k - 1) / k = m + 1 := by
  have hk0 : 0 < k := Nat.pos_of_ne_zero hk
  have he : m * k + r + k - 1 = k * (m + 1) + (r - 1) := by
    have h3 : k * (m + 1) = m * k + k := by ring
    omega
  rw [he, Nat.mul_add_div hk0]
  have h4 : (r - 1) / k = 0 := Nat.div_eq_of_lt (by omega)
  omega

/-- C5 (amended): with batch_size 0 a job holds exactly one batch containing
all added tests in order; with batch_size k not 0 and at least one test
added, the job holds ceil(N/k) batches, every batch except possibly the last
holding exactly k tests, and concatenating the batches in order yields the
tests in insertion order. (When no test is added the lazily created initial
batch remains, so a job holds 1 empty batch rather than ceil(0/k) = 0
batches.) -/
theorem job_batch_partition (k : Nat) (ts : List TestCase)
    (hk : k ≠ 0) (hts : ts ≠ []) :
    (∀ us : List TestCase, ((Job.create 0).add_testcases us).pendings = [us]) ∧
    ((Job.create k).add_testcases ts).batches.length = (ts.length + k - 1) / k ∧
    (∀ b ∈ ((Job.create k).add_testcases ts).batches.dropLast,
      b.pending_tests.length = k) ∧
    ((Job.create k).add_testcases ts).pendings.flatten = ts := by
  have hzero : ∀ us : List TestCase,
      ((Job.create 0).add_testcases us).pendings = [us] := by
    intro us
    have h := Job.add_testcases_batch_size_zero us (Job.create 0) [] ({} : TestBatch)
      rfl rfl
    simp [Job.pendings, h]
  obtain ⟨bs2, cur2, h1, h2, h3, h4, h5⟩ :=
    Job.add_testcases_chunked k hk ts (Job.create k) [] ({} : TestBatch)
      rfl rfl (by intro b hb; simp at hb) (by simp)
  have hflat : ((Job.create k).add_testcases ts).pendings.flatten = ts := by
    rw [Job.pendings, h1, h4]
    simp
  have hcur2ne : cur2.pending_tests ≠ [] := by
    intro hnil
    exact hts (h5 hnil).2.2
  have hcount : ((Job.create k).add_testcases ts).batches.length
      = (ts.length + k - 1) / k := by
    have hN : ts.length = bs2.length * k + cur2.pending_tests.length := by
      have := congrArg List.length h4
      simp only [List.length_flatten, List.map_append, List.map_map,
        List.sum_append, List.map_cons, List.map_nil] at this
      rw [sum_map_const_of_mem bs2 (List.length ∘ TestBatch.pending_tests) k
        (fun b hb => h2 b hb)] at this
      simp at this
      omega
    rw [h1, List.length_append]
    rw [hN, ceil_div_full_chunks k bs2.length cur2.pending_tests.length hk
      (Nat.one_le_iff_ne_zero.mpr (fun hz => hcur2ne (List.length_eq_zero.mp hz))) h3]
    simp
  refine ⟨hzero, hcount, ?_, hflat⟩
  intro b hb
  rw [h1, List.dropLast_concat] at hb
  exact h2 b hb

/-- C5 counterexample: with batch_size 1 and zero tests added the job holds
its single lazily created empty batch, not ceil(0/1) = 0 batches, so the
batch-count formula of the claim fails at N = 0. -/
theorem job_batch_partition_counterexample :
    ((Job.create 1).add_testcases ([] : List TestCase)).batches.length
      ≠ (([] : List TestCase).length + 1 - 1) / 1 := by
  decide

/-- C5 witness: three tests with batch size 2 give ceil(3/2) = 2 batches
whose concatenation is the original list. -/
theorem job_batch_partition_witness :
    (2 : Nat) ≠ 0 ∧
    ([blankTestCase, blankTestCase, blankTestCase] : List TestCase) ≠ [] ∧
    ((Job.create 2).add_testcases
        [blankTestCase, blankTestCase, blankTestCase]).batches.length
      = (([blankTestCase, blankTestCase, blankTestCase] : List TestCase).length + 2 - 1) / 2 ∧
    ((Job.create 2).add_testcases
        [blankTestCase, blankTestCase, blankTestCase]).pendings.flatten
      = [blankTestCase, blankTestCase, blankTestCase] :=
  have h := job_batch_partition 2 [blankTestCase, blankTestCase, blankTestCase]
    (by decide) (by simp)
  ⟨by decide, by simp, h.2.1, h.2.2.2⟩
